import Mathlib

/-!
Verification of the binding-synthesis engine of `go-clang-phoenix-gen`.

The development shallowly embeds the two core subsystems:

* the type mapper (`typeFromClangType`, package `generate`): native clang
  types, modelled by the inductive `CXType`, are resolved to a target type
  descriptor `GenType`; an unhandled type kind is a hard error (`GenError`);
* the naming heuristic `ArrayNameFromLength`, modelled over `List Char`
  (Go strings); its result is an `Option`, where `none` models the Go
  runtime fault (index out of range) the source can hit;
* the function synthesizer (`generateASTFunction`, `generateFunction`,
  package `main`): the Go `go/ast` fragment the source builds is modelled
  by the inductives `Expr`/`Stmt` and the structure `ASTFunc`; the final
  rendering of that tree through `go/format` (standard library) is outside
  the embedding, which stops at the abstract syntax the source constructs.
-/

/-! ## Go and C type-name constants (source: the `const` blocks) -/

def GoByte : String := "byte"

def GoInt8 : String := "int8"

def GoUInt8 : String := "uint8"

def GoInt16 : String := "int16"

def GoUInt16 : String := "uint16"

def GoInt32 : String := "int32"

def GoUInt32 : String := "uint32"

def GoInt64 : String := "int64"

def GoUInt64 : String := "uint64"

def GoFloat32 : String := "float32"

def GoFloat64 : String := "float64"

def GoBool : String := "bool"

def GoInterface : String := "interface"

def GoPointer : String := "unsafe.Pointer"

def CChar : String := "char"

def CSChar : String := "schar"

def CUChar : String := "uchar"

def CShort : String := "short"

def CUShort : String := "ushort"

def CInt : String := "int"

def CUInt : String := "uint"

def CLongInt : String := "long"

def CULongInt : String := "ulong"

def CLongLong : String := "longlong"

def CULongLong : String := "ulonglong"

def CFloat : String := "float"

def CDouble : String := "double"

/-- Go's `strings.HasPrefix`, over the strings' character lists. -/
def goHasPrefix (s p : String) : Bool := p.toList.isPrefixOf s.toList

/-- Modelled from the spec: `TrimLanguagePrefix` is declared outside the
given source files; the spec (§2.2, §4.1) describes it as "trimming a
library-specific prefix from record/enum names", the library prefix of
libclang being `CX`. -/
def TrimLanguagePrefix (s : String) : String :=
  if goHasPrefix s "CX" then String.mk (s.toList.drop 2) else s

/-- The `generate` package's `Type` struct ("a generation type").  Field
defaults are Go's zero values; the literal initializer of
`typeFromClangType` is `initType`. -/
structure GenType where
  CName : String := ""
  CGoName : String := ""
  GoName : String := ""
  PointerLevel : Int := 0
  IsPrimitive : Bool := false
  IsArray : Bool := false
  ArraySize : Int := 0
  IsEnumLiteral : Bool := false
  IsFunctionPointer : Bool := false
  IsReturnArgument : Bool := false
  IsSlice : Bool := false
  LengthOfSlice : String := ""
  IsPointerComposition : Bool := false
deriving DecidableEq, Repr

/-- The struct literal at the top of `typeFromClangType`: `CName` is the
type's spelling, `PointerLevel = 0`, `IsPrimitive = true`, `IsArray =
false`, `ArraySize = -1`, `IsEnumLiteral = false`, `IsFunctionPointer =
false`; the remaining fields are Go zero values. -/
def initType (spelling : String) : GenType :=
  { CName := spelling, IsPrimitive := true, ArraySize := -1 }

/-- The scalar clang type kinds `typeFromClangType` maps through its fixed
width table (plus `Bool` and `Void`). -/
inductive CXScalarKind where
  | charS | charU | int | short | ushort | uint | long | ulong
  | longlong | ulonglong | float | double | bool | void
deriving DecidableEq, Repr

/-- A clang type (`clang.Type`), restricted to the observations
`typeFromClangType` makes of it: its spelling, its kind, and the
kind-dependent components the source reads (array element type and size,
pointee, canonical type, the declaration's type spelling or display name,
and the two canonical-kind tests the source performs).  A kind outside
the handled set is `unhandled`, carrying the spelling of the type and of
its kind. -/
inductive CXType where
  | scalar (spelling : String) (kind : CXScalarKind)
  | constantArray (spelling : String) (elem : CXType) (size : Int)
  | typedef (spelling : String) (declSpelling : String) (canonicalIsEnum : Bool)
  | pointer (spelling : String) (pointee : CXType) (pointeeCanonicalIsFunctionProto : Bool)
  | record (spelling : String) (declSpelling : String)
  | functionProto (spelling : String) (declSpelling : String)
  | enum (spelling : String) (declDisplayName : String)
  | unexposed (spelling : String) (canonical : CXType)
  | unhandled (spelling : String) (kindSpelling : String)
deriving DecidableEq, Repr

/-- The error of `typeFromClangType`: the source builds it with
`fmt.Errorf("unhandled type %q of kind %q", cType.TypeSpelling(),
cType.Kind().Spelling())`; the embedding keeps the two reported strings
structured. -/
inductive GenError where
  | unhandledType (spelling : String) (kindSpelling : String)
deriving DecidableEq, Repr

/-- `typeFromClangType` (package `generate`): resolves a native clang type
into a `GenType`, switching on the type's kind exactly as the source
does. -/
def typeFromClangType : CXType → Except GenError GenType
  | .scalar s k =>
    let typ := initType s
    match k with
    | .charS => .ok { typ with CGoName := CSChar, GoName := GoInt8 }
    | .charU => .ok { typ with CGoName := CUChar, GoName := GoUInt8 }
    | .int => .ok { typ with CGoName := CInt, GoName := GoInt16 }
    | .short => .ok { typ with CGoName := CShort, GoName := GoInt16 }
    | .ushort => .ok { typ with CGoName := CUShort, GoName := GoUInt16 }
    | .uint => .ok { typ with CGoName := CUInt, GoName := GoUInt16 }
    | .long => .ok { typ with CGoName := CLongInt, GoName := GoInt32 }
    | .ulong => .ok { typ with CGoName := CULongInt, GoName := GoUInt32 }
    | .longlong => .ok { typ with CGoName := CLongLong, GoName := GoInt64 }
    | .ulonglong => .ok { typ with CGoName := CULongLong, GoName := GoUInt64 }
    | .float => .ok { typ with CGoName := CFloat, GoName := GoFloat32 }
    | .double => .ok { typ with CGoName := CDouble, GoName := GoFloat64 }
    | .bool => .ok { typ with GoName := GoBool }
    | .void => .ok { typ with CGoName := "void", GoName := "void" }
  | .constantArray s elem size =>
    match typeFromClangType elem with
    | .error e => .error e
    | .ok subTyp =>
      .ok { initType s with
            CGoName := subTyp.CGoName, GoName := subTyp.GoName,
            PointerLevel := 0 + subTyp.PointerLevel,
            IsArray := true, ArraySize := size }
  | .typedef s declSpelling canonicalIsEnum =>
    -- the source first clears IsPrimitive, then restores it for "time_t"
    -- and for canonical enums; CGoName is overwritten with the
    -- declaration's type spelling after the if-chain.
    let typeStr :=
      if s = "CXString" then "cxstring"
      else if s = "time_t" then "time.Time"
      else TrimLanguagePrefix declSpelling
    let isPrim := s = "time_t"
    .ok { initType s with
          CGoName := declSpelling, GoName := typeStr,
          IsPrimitive := (isPrim || canonicalIsEnum),
          IsEnumLiteral := canonicalIsEnum }
  | .pointer s pointee pcIsFunctionProto =>
    match typeFromClangType pointee with
    | .error e => .error e
    | .ok subTyp =>
      .ok { initType s with
            CGoName := subTyp.CGoName, GoName := subTyp.GoName,
            PointerLevel := 1 + subTyp.PointerLevel,
            IsPrimitive := subTyp.IsPrimitive,
            IsFunctionPointer := pcIsFunctionProto }
  | .record s declSpelling =>
    .ok { initType s with
          CGoName := declSpelling, GoName := TrimLanguagePrefix declSpelling,
          IsPrimitive := false }
  | .functionProto s declSpelling =>
    .ok { initType s with
          IsFunctionPointer := true,
          CGoName := declSpelling, GoName := TrimLanguagePrefix declSpelling }
  | .enum s declDisplayName =>
    .ok { initType s with
          GoName := TrimLanguagePrefix declDisplayName,
          IsEnumLiteral := true, IsPrimitive := true }
  | .unexposed s canonical =>
    match typeFromClangType canonical with
    | .error e => .error e
    | .ok subTyp =>
      .ok { initType s with
            CGoName := subTyp.CGoName, GoName := subTyp.GoName,
            PointerLevel := 0 + subTyp.PointerLevel,
            IsPrimitive := subTyp.IsPrimitive }
  | .unhandled s kindSpelling => .error (.unhandledType s kindSpelling)

/-! ## `ArrayNameFromLength` (package `generate`)

Go strings are modelled as `List Char`; `strings.TrimPrefix` and
`strings.TrimSuffix` are `trimPrefixL`/`trimSuffixL`.  The source's
uppercase test indexes the first byte of the trimmed name
(`rune(pan[0])`), modelled by the first character; `goIsUpper` models
`unicode.IsUpper` (they agree on the ASCII range this generator's
identifiers live in). -/

/-- `strings.TrimPrefix s p`: `s` without the leading `p`, or `s`
unchanged when `p` is not a prefix. -/
def trimPrefixL (s p : List Char) : List Char :=
  if p.isPrefixOf s then s.drop p.length else s

/-- `strings.TrimSuffix s p`: `s` without the trailing `p`, or `s`
unchanged when `p` is not a suffix. -/
def trimSuffixL (s p : List Char) : List Char :=
  if p.isSuffixOf s then s.take (s.length - p.length) else s

/-- `unicode.IsUpper` at the characters this generator meets. -/
def goIsUpper (c : Char) : Bool := c.isUpper

/-- The tail of `ArrayNameFromLength`'s rule chain: strip the suffix
`"_size"`, else the no-match sentinel `""` (`some []`). -/
def numSizeRule (lengthCName : List Char) : Option (List Char) :=
  let pan := trimSuffixL lengthCName ['_', 's', 'i', 'z', 'e']
  if pan.length ≠ lengthCName.length then some pan else some []

/-- `ArrayNameFromLength` (the spec's `deriveArrayName`).  `some r` is the
source's `return` of `r` (`some []` is the no-match sentinel `""`); `none`
models the index-out-of-range runtime fault the source hits when the
`"Num"` rule leaves an empty remainder and then reads `pan[0]`.  The Go
short-circuit `len(pan) != len(…) && unicode.IsUpper(rune(pan[0]))` is
the nested test: on a non-uppercase first character the chain falls
through to `numSizeRule`. -/
def ArrayNameFromLength (lengthCName : List Char) : Option (List Char) :=
  let pan1 := trimPrefixL lengthCName ['n', 'u', 'm', '_']
  if pan1.length ≠ lengthCName.length then some pan1
  else
    let pan2 := trimPrefixL lengthCName ['n', 'u', 'm']
    if pan2.length ≠ lengthCName.length then some pan2
    else
      let pan3 := trimPrefixL lengthCName ['N', 'u', 'm']
      if pan3.length ≠ lengthCName.length then
        match pan3 with
        | [] => none
        | c :: rest => if goIsUpper c then some (c :: rest) else numSizeRule lengthCName
      else numSizeRule lengthCName

/-- The first character of the remainder is uppercase (the source's
`unicode.IsUpper(rune(pan[0]))`, which on the empty remainder is the
index-out-of-range fault handled separately). -/
def firstIsUpper : List Char → Bool
  | [] => false
  | c :: _ => goIsUpper c

/-- A second definition following the spec's words (§4.2): try, in order,
strip prefix `"num_"`; else strip prefix `"num"`; else strip prefix
`"Num"` when the remaining name starts with an uppercase letter; else
strip suffix `"_size"`; else no match (`some []`) — amended at exactly
the input `"Num"`, where the source faults (`none`) instead of falling
through. -/
def deriveArrayName (n : List Char) : Option (List Char) :=
  if ['n', 'u', 'm', '_'] <+: n then some (n.drop 4)
  else if ['n', 'u', 'm'] <+: n then some (n.drop 3)
  else if ['N', 'u', 'm'] <+: n ∧ firstIsUpper (n.drop 3) = true then some (n.drop 3)
  else if n = ['N', 'u', 'm'] then none
  else if ['_', 's', 'i', 'z', 'e'] <:+ n then some (n.take (n.length - 5))
  else some []

/-! ## The `main` package: function synthesizer

The main package's `Type` struct is declared outside the given source
files; `MainType` models it, with the fields the source reads.  The Go
`go/ast` nodes the source builds are modelled by `Expr` and `Stmt`; the
built declaration (name, receiver, parameter fields, result fields, body)
is `ASTFunc`.  Rendering through `go/format` is a standard-library call
outside the embedding. -/

/-- Modelled from the spec: the main package's `Type` (the spec's
`TypeDescriptor`) is declared outside the given source files.  Fields are
those the source reads: `Name` (targetName), `CName` (nativeName),
`Primitive` (marshalName, empty for composites), `PointerLevel`,
`IsPrimitive`, and `IsReturnArgument` (isOutParameter). -/
structure MainType where
  Name : String := ""
  CName : String := ""
  Primitive : String := ""
  PointerLevel : Int := 0
  IsPrimitive : Bool := false
  IsReturnArgument : Bool := false
deriving DecidableEq, Repr

/-- Modelled from the spec: `Receiver` (the spec's `ReceiverDescriptor`)
is declared outside the given source files; the source reads `.Name` and
`.Type.Name` (the type field is `Typ` here, `Type` not being a usable
field name). -/
structure Receiver where
  Name : String := ""
  Typ : MainType := {}
deriving DecidableEq, Repr

/-- `FunctionParameter` (source): the type field is `Typ` here. -/
structure FunctionParameter where
  Name : String := ""
  CName : String := ""
  Typ : MainType := {}
deriving DecidableEq, Repr

/-- `Function` (source): one native callable about to be synthesized. -/
structure Function where
  Name : String := ""
  CName : String := ""
  Comment : String := ""
  Parameters : List FunctionParameter := []
  ReturnType : MainType := {}
  Receiver : Receiver := {}
  Member : String := ""
deriving DecidableEq, Repr

/-- The fragment of Go's `ast.Expr` the source builds: identifiers,
selectors, calls, the address-of unary (`token.AND`), the `!=` binary
(`token.NEQ`), integer literals, and composite literals. -/
inductive Expr where
  | ident (name : String)
  | sel (x : Expr) (field : String)
  | call (f : Expr) (args : List Expr)
  | addrOf (x : Expr)
  | neq (x y : Expr)
  | intLit (value : String)
  | compositeLit (typeName : String) (elts : List Expr)
deriving Repr

/-- The fragment of Go's `ast.Stmt` the source builds: expression
statements, `:=` assignments to a single new variable (`token.DEFINE`),
`var` declarations, `defer` statements (the scoped-cleanup registration,
run on every exit path), and `return`. -/
inductive Stmt where
  | exprStmt (x : Expr)
  | assign (lhs : String) (rhs : Expr)
  | varDecl (name : String) (typ : Expr)
  | deferS (x : Expr)
  | ret (results : List Expr)
deriving Repr

/-- The built `ast.FuncDecl`: `params = none` models a nil parameter
field list (the source creates it only when the function has
parameters); result fields and parameter fields are identifier-typed, so
results are type names and params are (name, type name) pairs. -/
structure ASTFunc where
  name : String := ""
  recv : Option (String × String) := none
  params : Option (List (String × String)) := none
  results : List String := []
  body : List Stmt := []
deriving Repr

/-- The source's `accessMember` closure: `v.m`. -/
def accessMember (v m : String) : Expr := .sel (.ident v) m

/-- The source's `doCall` closure: `v.m(args...)`. -/
def doCall (v m : String) (args : List Expr) : Expr := .call (accessMember v m) args

/-- The source's `doCType` closure: `C.c`. -/
def doCType (c : String) : Expr := accessMember "C" c

/-- The source's `doCCast` closure: `C.typ(args...)`. -/
def doCCast (typ : String) (args : List Expr) : Expr := doCall "C" typ args

/-- The source's `addEmptyLine` fake statement `REMOVE()` (stripped
textually after rendering). -/
def emptyLineStmt : Stmt := .exprStmt (.call (.ident "REMOVE") [])

/-- The result-field type a promoted out-parameter contributes: `string`
for the `cxstring` wrapper, the parameter's own target name otherwise. -/
def outParamRetType (p : FunctionParameter) : String :=
  if p.Typ.Name = "cxstring" then "string" else p.Typ.Name

/-- The type of the local variable declared for an out-parameter: the C
marshal type when the parameter has one, the target type otherwise. -/
def outParamVarType (p : FunctionParameter) : Expr :=
  if p.Typ.Primitive ≠ "" then doCType p.Typ.Primitive else .ident p.Typ.Name

/-- The statements declaring an out-parameter's local variable; for the
`cxstring` wrapper a deferred `Dispose` is registered immediately after
the declaration. -/
def outParamDecls (p : FunctionParameter) : List Stmt :=
  Stmt.varDecl p.Name (outParamVarType p) ::
    (if p.Typ.Name = "cxstring" then [Stmt.deferS (doCall p.Name "Dispose" [])] else [])

/-- The value an out-parameter contributes to the return statement: a
cast to the target type for marshalled primitives, the extracted string
content for the `cxstring` wrapper, the bare variable otherwise. -/
def outParamRetVal (p : FunctionParameter) : Expr :=
  if p.Typ.Primitive ≠ "" then .call (.ident p.Typ.Name) [.ident p.Name]
  else if p.Typ.Name = "cxstring" then doCall p.Name "String" []
  else .ident p.Name

/-- Accumulator of the source's first parameter loop (return-argument
promotion): result-field types, parameter fields, declaration statements,
return-statement expressions, and the `hasReturnArguments` flag. -/
structure ParamLoopOut where
  results : List String := []
  params : List (String × String) := []
  stmts : List Stmt := []
  returs : List Expr := []
  hasReturnArguments : Bool := false

/-- The first parameter loop of `generateASTFunction`: a return-argument
parameter contributes a result field, a `var` declaration (of the C
marshal type when it has one), for the `cxstring` wrapper a deferred
`Dispose`, and a converted entry of the return statement; any other
parameter becomes a parameter field. -/
def processParams : List FunctionParameter → ParamLoopOut
  | [] => {}
  | p :: ps =>
    let rest := processParams ps
    if p.Typ.IsReturnArgument then
      { results := outParamRetType p :: rest.results,
        params := rest.params,
        stmts := outParamDecls p ++ rest.stmts,
        returs := outParamRetVal p :: rest.returs,
        hasReturnArguments := true }
    else
      { rest with params := (p.Name, p.Typ.Name) :: rest.params }

/-- The conversion statements a parameter contributes before the call: a
primitive `const char *` parameter allocates the transient `C.CString`
copy and defers `C.free` of it; every other parameter contributes
none. -/
def paramConvStmts (p : FunctionParameter) : List Stmt :=
  if p.Typ.Primitive ≠ "" ∧ p.Typ.CName = "const char *" then
    [Stmt.assign ("c_" ++ p.Name) (doCCast "CString" [.ident p.Name]),
     Stmt.deferS (doCCast "free" [doCall "unsafe" "Pointer" [.ident ("c_" ++ p.Name)]])]
  else []

/-- Whether a parameter triggers the `goToCTypeConversions` flag. -/
def isCStringParam (p : FunctionParameter) : Bool :=
  (p.Typ.Primitive != "") && (p.Typ.CName == "const char *")

/-- The call-argument expression for a parameter, before the address-of
wrap: the transient C-string copy, the `cxstring` marshal's `.c` field,
a bare identifier for return arguments (they are already of the C type),
a C cast for other primitives, and the `.c` field for composites. -/
def paramCallArgBase (p : FunctionParameter) : Expr :=
  if p.Typ.Primitive ≠ "" then
    if p.Typ.CName = "const char *" then .ident ("c_" ++ p.Name)
    else if p.Typ.Primitive = "cxstring" then accessMember p.Name "c"
    else if p.Typ.IsReturnArgument then .ident p.Name
    else doCCast p.Typ.Primitive [.ident p.Name]
  else accessMember p.Name "c"

/-- The call-argument expression for a parameter: return arguments are
passed by address. -/
def paramCallArg (p : FunctionParameter) : Expr :=
  if p.Typ.IsReturnArgument then .addrOf (paramCallArgBase p) else paramCallArgBase p

/-- Accumulator of the source's second parameter loop (call arguments):
conversion statements, call arguments, and the `goToCTypeConversions`
flag. -/
structure ArgLoopOut where
  stmts : List Stmt := []
  args : List Expr := []
  goToCTypeConversions : Bool := false

/-- The second parameter loop of `generateASTFunction`: builds each call
argument; a primitive `const char *` parameter gets a transient
`C.CString` copy with a deferred `C.free`, a `cxstring` marshal accesses
`.c`, a return argument is passed by address (`&`), other primitives are
cast, composites access `.c`. -/
def processArgs : List FunctionParameter → ArgLoopOut
  | [] => {}
  | p :: ps =>
    let rest := processArgs ps
    { stmts := paramConvStmts p ++ rest.stmts,
      args := paramCallArg p :: rest.args,
      goToCTypeConversions := isCStringParam p || rest.goToCTypeConversions }

/-- `f.Parameters[0].Name = f.Receiver.Name`: the in-place rename of the
first parameter when the function is generated as a method. -/
def renameFirstParam (recvName : String) : List FunctionParameter → List FunctionParameter
  | [] => []
  | p :: ps => { p with Name := recvName } :: ps

/-- The parameter list after the receiver rename (the list both loops of
the source iterate). -/
def renamedParams (f : Function) : List FunctionParameter :=
  if f.Receiver.Name ≠ "" then renameFirstParam f.Receiver.Name f.Parameters
  else f.Parameters

/-- The parameters the first loop actually processes: the receiver
parameter (index 0, when a receiver is set) is skipped. -/
def loop1Params (f : Function) : List FunctionParameter :=
  if f.Receiver.Name ≠ "" then (renamedParams f).drop 1 else renamedParams f

/-- The statements preceding the return handling: the out-parameter
declarations of the first loop, a blank line when return arguments
exist, the Go-to-C conversion statements of the second loop, and a blank
line when conversions were emitted. -/
def preBody (f : Function) : List Stmt :=
  (processParams (loop1Params f)).stmts ++
    (if (processParams (loop1Params f)).hasReturnArguments then [emptyLineStmt] else []) ++
    (processArgs (renamedParams f)).stmts ++
    (if (processArgs (renamedParams f)).goToCTypeConversions then [emptyLineStmt] else [])

/-- The native call expression (the source's `call` variable, after the
argument loop has filled `call.Args`). -/
def nativeCall (f : Function) : Expr := doCCast f.CName (processArgs (renamedParams f)).args

/-- The return-shape dispatch of `generateASTFunction`: the source's
if-chain on the resolved return type name, producing the result-field
list and the statement body (each branch appends the final `return` or
the bare call to `preBody`). -/
def astResultsBody (f : Function) : List String × List Stmt :=
  let L1 := processParams (loop1Params f)
  if f.ReturnType.Name ≠ "void" ∨ L1.hasReturnArguments then
    let results1 :=
      L1.results ++ (if f.ReturnType.Name ≠ "void" then [f.ReturnType.Name] else [])
    if f.ReturnType.Name = "bool" ∧ f.ReturnType.Primitive ≠ "" then
      (results1,
       preBody f ++
         [Stmt.assign "o" (nativeCall f), emptyLineStmt,
          Stmt.ret (L1.returs ++
            [Expr.neq (.ident "o") (doCCast f.ReturnType.Primitive [.intLit "0"])])])
    else if f.ReturnType.Name = "string" then
      (results1, preBody f ++ [Stmt.ret (L1.returs ++ [doCCast "GoString" [nativeCall f]])])
    else if f.ReturnType.Name = "cxstring" then
      (results1.set (results1.length - 1) "string",
       preBody f ++
         [Stmt.assign "o" (Expr.compositeLit "cxstring" [nativeCall f]),
          Stmt.deferS (doCall "o" "Dispose" []), emptyLineStmt,
          Stmt.ret (L1.returs ++ [doCall "o" "String" []])])
    else if f.ReturnType.Name = "time.Time" then
      (results1,
       preBody f ++
         [Stmt.ret (L1.returs ++
           [doCall "time" "Unix" [Expr.call (.ident "int64") [nativeCall f], .intLit "0"]])])
    else if f.ReturnType.Name = "void" then
      (results1,
       preBody f ++ [Stmt.exprStmt (nativeCall f), emptyLineStmt, Stmt.ret L1.returs])
    else
      let convCall : Expr :=
        if f.ReturnType.Primitive = "" then Expr.compositeLit f.ReturnType.Name [nativeCall f]
        else Expr.call (.ident f.ReturnType.Name) [nativeCall f]
      if L1.hasReturnArguments then
        (results1,
         preBody f ++
           [Stmt.assign "o" convCall, emptyLineStmt, Stmt.ret (L1.returs ++ [Expr.ident "o"])])
      else
        (results1, preBody f ++ [Stmt.ret (L1.returs ++ [convCall])])
  else
    ((processParams (loop1Params f)).results, preBody f ++ [Stmt.exprStmt (nativeCall f)])

/-- `generateASTFunction` (package `main`), up to the abstract syntax tree
it builds: receiver promotion, return-argument promotion, call-argument
marshalling, and the return-shape dispatch on the resolved return type
name.  The source's final `format.Node` rendering (and the textual
`REMOVE()` cleanup and comment prepending) are outside the embedding. -/
def generateASTFunction (f : Function) : ASTFunc :=
  { name := f.Name,
    recv :=
      if f.Receiver.Name ≠ "" ∧ 0 < f.Parameters.length then
        some (f.Receiver.Name, f.Receiver.Typ.Name)
      else none,
    params :=
      if f.Parameters.isEmpty then none
      else some (processParams (loop1Params f)).params,
    results := (astResultsBody f).1,
    body := (astResultsBody f).2 }

/-- Modelled from the spec: `trimClangPrefix` is declared outside the
given source files; like `TrimLanguagePrefix` it strips the library's
`CX` prefix from a native name. -/
def trimClangPrefix (s : String) : String :=
  if goHasPrefix s "CX" then String.mk (s.toList.drop 2) else s

/-- Modelled from the spec: `receiverName` is declared outside the given
source files; the spec describes it as deriving "a receiver-style name"
from a type name, modelled as the lowercased first character. -/
def receiverName (typeName : String) : String :=
  match typeName.toList with
  | [] => ""
  | c :: _ => String.mk [c.toLower]

/-- Modelled from the spec: `upperFirstCharacter` is declared outside the
given source files; it uppercases the first character of a name. -/
def upperFirstCharacter (s : String) : String :=
  match s.toList with
  | [] => s
  | c :: rest => String.mk (c.toUpper :: rest)

/-- `generateFunction` (package `main`): builds the `Function` descriptor
for a struct-member getter; copies the target name into the marshal name
for primitives, and applies the `has`/`is` boolean-coercion heuristic on
a mapped return type named `GoInt32`. -/
def generateFunction (name cname comment member : String) (typ : MainType) : Function :=
  let receiverType := trimClangPrefix cname
  let recvName := receiverName receiverType
  let functionName := upperFirstCharacter name
  let typ1 := if typ.IsPrimitive then { typ with Primitive := typ.Name } else typ
  let typ2 :=
    if (goHasPrefix name "has" || goHasPrefix name "is") ∧ typ1.Name = GoInt32 then
      { typ1 with Name := GoBool }
    else typ1
  { Name := functionName,
    CName := cname,
    Comment := comment,
    Parameters := [],
    ReturnType := typ2,
    Receiver := { Name := recvName, Typ := { Name := receiverType } },
    Member := member }

/-- Well-formed spellings: every declaration name (or display name) a
branch of `typeFromClangType` turns into a target name survives the
library-prefix trim non-empty.  Real introspection output satisfies
this — a declaration is never named by the bare library prefix. -/
def spellingsWF : CXType → Bool
  | .scalar _ _ => true
  | .constantArray _ elem _ => spellingsWF elem
  | .typedef s declSpelling _ =>
    s == "CXString" || s == "time_t" || !(TrimLanguagePrefix declSpelling == "")
  | .pointer _ pointee _ => spellingsWF pointee
  | .record _ declSpelling => !(TrimLanguagePrefix declSpelling == "")
  | .functionProto _ declSpelling => !(TrimLanguagePrefix declSpelling == "")
  | .enum _ declDisplayName => !(TrimLanguagePrefix declDisplayName == "")
  | .unexposed _ canonical => spellingsWF canonical
  | .unhandled _ _ => true

/-! ## Helper lemmas on the Go string trims -/

theorem trimPrefixL_pos {p n : List Char} (h : p <+: n) :
    trimPrefixL n p = n.drop p.length := by
  simp [trimPrefixL, List.isPrefixOf_iff_prefix.mpr h]

theorem trimPrefixL_neg {p n : List Char} (h : ¬ p <+: n) :
    trimPrefixL n p = n := by
  simp only [trimPrefixL, List.isPrefixOf_iff_prefix]
  simp [h]

theorem trimPrefixL_length_ne {p n : List Char} (hp : p ≠ []) :
    (trimPrefixL n p).length ≠ n.length ↔ p <+: n := by
  by_cases h : p <+: n
  · rw [trimPrefixL_pos h, List.length_drop]
    have h1 : p.length ≤ n.length := h.length_le
    have h2 : 0 < p.length := List.length_pos.mpr hp
    simp only [h, iff_true]
    omega
  · rw [trimPrefixL_neg h]
    simp [h]

theorem trimSuffixL_of_suffix {p n : List Char} (h : p <:+ n) :
    trimSuffixL n p = n.take (n.length - p.length) := by
  simp [trimSuffixL, List.isSuffixOf_iff_suffix.mpr h]

theorem trimSuffixL_of_not_suffix {p n : List Char} (h : ¬ p <:+ n) :
    trimSuffixL n p = n := by
  simp only [trimSuffixL, List.isSuffixOf_iff_suffix]
  simp [h]

theorem trimSuffixL_length_ne {p n : List Char} (hp : p ≠ []) :
    (trimSuffixL n p).length ≠ n.length ↔ p <:+ n := by
  by_cases h : p <:+ n
  · rw [trimSuffixL_of_suffix h, List.length_take]
    have h1 : p.length ≤ n.length := h.length_le
    have h2 : 0 < p.length := List.length_pos.mpr hp
    have h3 : 0 < n.length := lt_of_lt_of_le h2 h1
    simp only [h, iff_true]
    omega
  · rw [trimSuffixL_of_not_suffix h]
    simp [h]

theorem numSizeRule_eq (n : List Char) :
    numSizeRule n =
      if ['_', 's', 'i', 'z', 'e'] <:+ n then some (n.take (n.length - 5))
      else some ([] : List Char) := by
  unfold numSizeRule
  by_cases h : ['_', 's', 'i', 'z', 'e'] <:+ n
  · rw [if_pos ((trimSuffixL_length_ne (by decide)).mpr h), trimSuffixL_of_suffix h]
    simp [h]
  · rw [if_neg (by simpa using (trimSuffixL_length_ne (p := ['_', 's', 'i', 'z', 'e'])
      (n := n) (by decide)).not.mpr h)]
    simp [h]

theorem ArrayNameFromLength_eq_spec (n : List Char) :
    ArrayNameFromLength n = deriveArrayName n := by
  have F1 := trimPrefixL_length_ne (p := ['n', 'u', 'm', '_']) (n := n) (by decide)
  have F2 := trimPrefixL_length_ne (p := ['n', 'u', 'm']) (n := n) (by decide)
  have F3 := trimPrefixL_length_ne (p := ['N', 'u', 'm']) (n := n) (by decide)
  simp only [ArrayNameFromLength, deriveArrayName, F1, F2, F3]
  by_cases h1 : ['n', 'u', 'm', '_'] <+: n
  · simp [h1, trimPrefixL_pos h1]
  · simp only [h1, if_false]
    by_cases h2 : ['n', 'u', 'm'] <+: n
    · simp [h2, trimPrefixL_pos h2]
    · simp only [h2, if_false]
      by_cases h3 : ['N', 'u', 'm'] <+: n
      · rw [trimPrefixL_pos h3]
        have hlen : (['N', 'u', 'm'] : List Char).length = 3 := rfl
        rw [hlen]
        rcases hd : n.drop 3 with _ | ⟨c, rest⟩
        · have hn : n = ['N', 'u', 'm'] := by
            obtain ⟨t, ht⟩ := h3
            rw [← ht, List.drop_left' (by decide)] at hd
            rw [← ht, hd]
            simp
          simp [h3, hd, hn, firstIsUpper]
        · have hne : n ≠ ['N', 'u', 'm'] := by
            intro he
            rw [he] at hd
            simp at hd
          by_cases hu : goIsUpper c
          · simp [h3, hd, hu, firstIsUpper]
          · simp only [h3, if_true, hd, hu, if_false, true_and, firstIsUpper,
              Bool.false_eq_true, if_neg hne, numSizeRule_eq]
      · have hne : n ≠ ['N', 'u', 'm'] := by
          intro he
          exact h3 (he ▸ List.prefix_refl _)
        simp only [h3, if_false, false_and, if_neg hne, numSizeRule_eq]

/-! ## Claim theorems -/

/-- C3: the integer-width kinds map through the fixed table with
signedness preserved: signed char → `int8`, unsigned char → `uint8`,
short and int → `int16`, unsigned short and unsigned int → `uint16`,
long → `int32`, unsigned long → `uint32`, long-long → `int64`, unsigned
long-long → `uint64` (native `int` maps to a 16-bit target type, not
32-bit). -/
theorem typeFromClangType_width_table (s : String) :
    typeFromClangType (.scalar s .charS)
      = .ok { initType s with CGoName := CSChar, GoName := GoInt8 } ∧
    typeFromClangType (.scalar s .charU)
      = .ok { initType s with CGoName := CUChar, GoName := GoUInt8 } ∧
    typeFromClangType (.scalar s .short)
      = .ok { initType s with CGoName := CShort, GoName := GoInt16 } ∧
    typeFromClangType (.scalar s .int)
      = .ok { initType s with CGoName := CInt, GoName := GoInt16 } ∧
    typeFromClangType (.scalar s .ushort)
      = .ok { initType s with CGoName := CUShort, GoName := GoUInt16 } ∧
    typeFromClangType (.scalar s .uint)
      = .ok { initType s with CGoName := CUInt, GoName := GoUInt16 } ∧
    typeFromClangType (.scalar s .long)
      = .ok { initType s with CGoName := CLongInt, GoName := GoInt32 } ∧
    typeFromClangType (.scalar s .ulong)
      = .ok { initType s with CGoName := CULongInt, GoName := GoUInt32 } ∧
    typeFromClangType (.scalar s .longlong)
      = .ok { initType s with CGoName := CLongLong, GoName := GoInt64 } ∧
    typeFromClangType (.scalar s .ulonglong)
      = .ok { initType s with CGoName := CULongLong, GoName := GoUInt64 } :=
  ⟨rfl, rfl, rfl, rfl, rfl, rfl, rfl, rfl, rfl, rfl⟩

/-- C10: on exactly the input `"Num"`, the `"num_"` and `"num"` rules do
not strip (matching is case-sensitive), the `"Num"` rule strips to the
empty remainder, and the function hits the index-out-of-range fault
(modelled as `none`) instead of returning the no-match sentinel. -/
theorem ArrayNameFromLength_Num_fault :
    trimPrefixL "Num".toList ['n', 'u', 'm', '_'] = "Num".toList ∧
    trimPrefixL "Num".toList ['n', 'u', 'm'] = "Num".toList ∧
    trimPrefixL "Num".toList ['N', 'u', 'm'] = [] ∧
    ArrayNameFromLength "Num".toList = none := by decide

/-- C8, counterexample: the claim's final rule says any input matching no
rule "reports no match" (the sentinel `some []`); on the input `"Num"`
(which the uppercase condition rejects) the source instead faults, so
the result is not the sentinel. -/
theorem ArrayNameFromLength_Num_not_sentinel :
    ArrayNameFromLength "Num".toList ≠ some [] ∧
    ArrayNameFromLength "Num".toList = none := by decide

/-- C8, amended: `ArrayNameFromLength` applies its rules in order,
stopping at the first match — strip prefix `"num_"`; else strip prefix
`"num"`; else strip prefix `"Num"` when the remainder starts with an
uppercase letter; else strip suffix `"_size"`; else no match — except
that on exactly the input `"Num"` it faults (`none`) instead of
reporting no match.  `deriveArrayName` states those rules in the spec's
words; the listed examples evaluate as the claim says. -/
theorem ArrayNameFromLength_rule_order :
    (∀ n : List Char, ArrayNameFromLength n = deriveArrayName n) ∧
    ArrayNameFromLength "num_elements".toList = some "elements".toList ∧
    ArrayNameFromLength "numItems".toList = some "Items".toList ∧
    ArrayNameFromLength "NumFiles".toList = some "Files".toList ∧
    ArrayNameFromLength "Numx".toList = some [] ∧
    ArrayNameFromLength "buffer_size".toList = some "buffer".toList ∧
    ArrayNameFromLength "count".toList = some [] :=
  ⟨ArrayNameFromLength_eq_spec, by decide, by decide, by decide, by decide,
   by decide, by decide⟩

/-- C1, counterexample: a function named `isValid` whose mapped primitive
return type is `int16` — squarely in the claim's "16-bit-integer family"
with an `is` prefix — is not coerced to boolean by the source: the
condition compares against `GoInt32`. -/
theorem generateFunction_int16_not_coerced :
    goHasPrefix "isValid" "is" = true ∧
    (generateFunction "isValid" "CXSourceLocation" "" "offset"
        { Name := GoInt16, IsPrimitive := true }).ReturnType.Name = GoInt16 ∧
    GoInt16 ≠ GoBool := by
  refine ⟨by decide, rfl, by decide⟩

/-- Every successful resolution has a non-negative pointer depth. -/
theorem typeFromClangType_pointerLevel_nonneg :
    ∀ (t : CXType) (T : GenType), typeFromClangType t = .ok T → 0 ≤ T.PointerLevel := by
  intro t
  induction t with
  | scalar s k =>
    intro T h
    cases k <;> simp only [typeFromClangType, Except.ok.injEq] at h <;> rw [← h] <;>
      exact le_refl 0
  | constantArray s elem size ih =>
    intro T h
    simp only [typeFromClangType] at h
    cases hp : typeFromClangType elem with
    | error e => rw [hp] at h; exact absurd h (by simp)
    | ok sub =>
      rw [hp] at h
      simp only [Except.ok.injEq] at h
      rw [← h]
      exact add_nonneg le_rfl (ih sub hp)
  | typedef s d ce =>
    intro T h
    simp only [typeFromClangType, Except.ok.injEq] at h
    rw [← h]
    exact le_refl 0
  | pointer s pointee b ih =>
    intro T h
    simp only [typeFromClangType] at h
    cases hp : typeFromClangType pointee with
    | error e => rw [hp] at h; exact absurd h (by simp)
    | ok sub =>
      rw [hp] at h
      simp only [Except.ok.injEq] at h
      rw [← h]
      exact add_nonneg zero_le_one (ih sub hp)
  | record s d =>
    intro T h
    simp only [typeFromClangType, Except.ok.injEq] at h
    rw [← h]
    exact le_refl 0
  | functionProto s d =>
    intro T h
    simp only [typeFromClangType, Except.ok.injEq] at h
    rw [← h]
    exact le_refl 0
  | enum s d =>
    intro T h
    simp only [typeFromClangType, Except.ok.injEq] at h
    rw [← h]
    exact le_refl 0
  | unexposed s canonical ih =>
    intro T h
    simp only [typeFromClangType] at h
    cases hp : typeFromClangType canonical with
    | error e => rw [hp] at h; exact absurd h (by simp)
    | ok sub =>
      rw [hp] at h
      simp only [Except.ok.injEq] at h
      rw [← h]
      exact add_nonneg le_rfl (ih sub hp)
  | unhandled s k =>
    intro T h
    exact absurd h (by simp [typeFromClangType])

/-- C1, amended: `generateFunction` overrides the return type to boolean
exactly when the native name begins with `has` or `is` AND the mapped
return type name is the 32-bit signed integer `GoInt32` (not the
16-bit-integer family); `isValid` with a `float32` return is not
coerced. -/
theorem generateFunction_bool_coercion_iff
    (name cname comment member : String) (typ : MainType) :
    ((generateFunction name cname comment member typ).ReturnType.Name =
      if (goHasPrefix name "has" || goHasPrefix name "is") ∧ typ.Name = GoInt32 then GoBool
      else typ.Name) ∧
    (generateFunction "isValid" cname comment member
        { Name := GoFloat32, IsPrimitive := true }).ReturnType.Name = GoFloat32 := by
  constructor
  · by_cases hp : typ.IsPrimitive <;>
      by_cases hc : (goHasPrefix name "has" = true ∨ goHasPrefix name "is" = true) ∧
        typ.Name = GoInt32 <;>
      simp [generateFunction, hp, hc]
  · rfl

/-- C6: pointer depth is additive across nested unwrapping: resolving
pointer-to-`t` adds one to `t`'s depth, a fixed-size array of `t`
inherits `t`'s depth, `t**` adds two, and a resolved depth is never
negative. -/
theorem typeFromClangType_pointer_depth_additive (t : CXType) (T : GenType)
    (h : typeFromClangType t = .ok T) :
    (∀ s b, ∃ T1, typeFromClangType (.pointer s t b) = .ok T1 ∧
        T1.PointerLevel = T.PointerLevel + 1) ∧
    (∀ s n, ∃ T2, typeFromClangType (.constantArray s t n) = .ok T2 ∧
        T2.PointerLevel = T.PointerLevel) ∧
    (∀ s1 s2 b1 b2, ∃ T3,
        typeFromClangType (.pointer s2 (.pointer s1 t b1) b2) = .ok T3 ∧
        T3.PointerLevel = T.PointerLevel + 2) ∧
    0 ≤ T.PointerLevel := by
  refine ⟨?_, ?_, ?_, typeFromClangType_pointerLevel_nonneg t T h⟩
  · intro s b
    simp only [typeFromClangType, h]
    refine ⟨_, rfl, ?_⟩
    show 1 + T.PointerLevel = T.PointerLevel + 1
    omega
  · intro s n
    simp only [typeFromClangType, h]
    refine ⟨_, rfl, ?_⟩
    show 0 + T.PointerLevel = T.PointerLevel
    omega
  · intro s1 s2 b1 b2
    simp only [typeFromClangType, h]
    refine ⟨_, rfl, ?_⟩
    show 1 + (1 + T.PointerLevel) = T.PointerLevel + 2
    omega

/-- Witness for C6 at native `int**` over base depth 0: the resolved
depth is `0 + 2`. -/
theorem typeFromClangType_pointer_depth_additive_witness :
    ∃ T3, typeFromClangType
        (.pointer "int **" (.pointer "int *" (.scalar "int" .int) false) false) = .ok T3 ∧
      T3.PointerLevel = 0 + 2 := by
  obtain ⟨-, -, h3, -⟩ :=
    typeFromClangType_pointer_depth_additive (.scalar "int" .int) _ rfl
  exact h3 "int *" "int **" false false

/-- C7, counterexample: resolving an unexposed type whose canonical form
is an enum does not adopt the canonical result verbatim — the canonical
resolution has `IsEnumLiteral = true`, the unexposed resolution has
`IsEnumLiteral = false` (only target name, marshal name, pointer depth
and the primitive flag are copied). -/
theorem typeFromClangType_unexposed_enum_not_verbatim :
    (typeFromClangType (.enum "enum CXCursorKind" "CXCursorKind")).map
        (fun T => T.IsEnumLiteral) = .ok true ∧
    (typeFromClangType (.unexposed "CXCursorKind"
        (.enum "enum CXCursorKind" "CXCursorKind"))).map
        (fun T => T.IsEnumLiteral) = .ok false :=
  ⟨rfl, rfl⟩

/-- C7, amended: resolving an unexposed type re-resolves the canonical
form and adopts its marshal name, target name, pointer depth and
primitive flag, recording the unexposed type's own spelling; the
enum-literal, array, array-size and function-pointer fields are not
copied and keep their initial values (`false`, `false`, `-1`,
`false`). -/
theorem typeFromClangType_unexposed_adopts_canonical
    (s : String) (t : CXType) (T : GenType) (h : typeFromClangType t = .ok T) :
    ∃ Tu, typeFromClangType (.unexposed s t) = .ok Tu ∧
      Tu.CGoName = T.CGoName ∧ Tu.GoName = T.GoName ∧
      Tu.PointerLevel = T.PointerLevel ∧ Tu.IsPrimitive = T.IsPrimitive ∧
      Tu.CName = s ∧ Tu.IsEnumLiteral = false ∧ Tu.IsArray = false ∧
      Tu.ArraySize = -1 ∧ Tu.IsFunctionPointer = false := by
  simp only [typeFromClangType, h]
  refine ⟨_, rfl, rfl, rfl, ?_, rfl, rfl, rfl, rfl, rfl, rfl⟩
  show 0 + T.PointerLevel = T.PointerLevel
  omega

/-- Witness for C7's amended statement, at an unexposed wrapping of
native `unsigned int`. -/
theorem typeFromClangType_unexposed_adopts_canonical_witness :
    ∃ Tu, typeFromClangType (.unexposed "CXGlobalOptFlags"
        (.scalar "unsigned int" .uint)) = .ok Tu ∧
      Tu.CGoName = CUInt ∧ Tu.GoName = GoUInt16 ∧
      Tu.PointerLevel = 0 ∧ Tu.IsPrimitive = true ∧
      Tu.CName = "CXGlobalOptFlags" ∧ Tu.IsEnumLiteral = false ∧
      Tu.IsArray = false ∧ Tu.ArraySize = -1 ∧ Tu.IsFunctionPointer = false :=
  typeFromClangType_unexposed_adopts_canonical "CXGlobalOptFlags"
    (.scalar "unsigned int" .uint) _ rfl

/-- C9: resolution fails closed — a successful resolution of a
well-spelled type carries a non-empty target name, a type of unhandled
kind fails with the error reporting its spelling and kind, and every
failure is such an unhandled-type error. -/
theorem typeFromClangType_fails_closed (t : CXType) :
    (∀ T, typeFromClangType t = .ok T → spellingsWF t = true → T.GoName ≠ "") ∧
    (∀ s k, t = .unhandled s k → typeFromClangType t = .error (.unhandledType s k)) ∧
    (∀ e, typeFromClangType t = .error e → ∃ s k, e = .unhandledType s k) := by
  refine ⟨?_, ?_, ?_⟩
  · induction t with
    | scalar s k =>
      intro T h hw
      cases k <;> simp only [typeFromClangType, Except.ok.injEq] at h <;> rw [← h] <;>
        first
          | exact (by decide : GoInt8 ≠ "")
          | exact (by decide : GoUInt8 ≠ "")
          | exact (by decide : GoInt16 ≠ "")
          | exact (by decide : GoUInt16 ≠ "")
          | exact (by decide : GoInt32 ≠ "")
          | exact (by decide : GoUInt32 ≠ "")
          | exact (by decide : GoInt64 ≠ "")
          | exact (by decide : GoUInt64 ≠ "")
          | exact (by decide : GoFloat32 ≠ "")
          | exact (by decide : GoFloat64 ≠ "")
          | exact (by decide : GoBool ≠ "")
          | exact (by decide : "void" ≠ "")
    | constantArray s elem size ih =>
      intro T h hw
      simp only [typeFromClangType] at h
      cases hp : typeFromClangType elem with
      | error e => rw [hp] at h; exact absurd h (by simp)
      | ok sub =>
        rw [hp] at h
        simp only [Except.ok.injEq] at h
        rw [← h]
        exact ih sub hp hw
    | typedef s d ce =>
      intro T h hw
      simp only [typeFromClangType, Except.ok.injEq] at h
      rw [← h]
      show (if s = "CXString" then "cxstring"
            else if s = "time_t" then "time.Time" else TrimLanguagePrefix d) ≠ ""
      have hw' : (s == "CXString" || s == "time_t" ||
          !(TrimLanguagePrefix d == "")) = true := hw
      by_cases h1 : s = "CXString"
      · simp [h1]
      · by_cases h2 : s = "time_t"
        · simp [h1, h2]
        · simp only [if_neg h1, if_neg h2]
          simp [h1, h2] at hw'
          exact hw'
    | pointer s pointee b ih =>
      intro T h hw
      simp only [typeFromClangType] at h
      cases hp : typeFromClangType pointee with
      | error e => rw [hp] at h; exact absurd h (by simp)
      | ok sub =>
        rw [hp] at h
        simp only [Except.ok.injEq] at h
        rw [← h]
        exact ih sub hp hw
    | record s d =>
      intro T h hw
      simp only [typeFromClangType, Except.ok.injEq] at h
      rw [← h]
      show TrimLanguagePrefix d ≠ ""
      have hw' : (!(TrimLanguagePrefix d == "")) = true := hw
      simpa using hw'
    | functionProto s d =>
      intro T h hw
      simp only [typeFromClangType, Except.ok.injEq] at h
      rw [← h]
      show TrimLanguagePrefix d ≠ ""
      have hw' : (!(TrimLanguagePrefix d == "")) = true := hw
      simpa using hw'
    | enum s d =>
      intro T h hw
      simp only [typeFromClangType, Except.ok.injEq] at h
      rw [← h]
      show TrimLanguagePrefix d ≠ ""
      have hw' : (!(TrimLanguagePrefix d == "")) = true := hw
      simpa using hw' 
    | unexposed s canonical ih =>
      intro T h hw
      simp only [typeFromClangType] at h
      cases hp : typeFromClangType canonical with
      | error e => rw [hp] at h; exact absurd h (by simp)
      | ok sub =>
        rw [hp] at h
        simp only [Except.ok.injEq] at h
        rw [← h]
        exact ih sub hp hw
    | unhandled s k =>
      intro T h hw
      exact absurd h (by simp [typeFromClangType])
  · intro s k hk
    subst hk
    rfl
  · intro e he
    cases e with
    | unhandledType s k => exact ⟨s, k, rfl⟩

/-- Witness for C9: a record type resolves to the non-empty target name,
and a type of unhandled kind fails with the reporting error. -/
theorem typeFromClangType_fails_closed_witness :
    spellingsWF (.record "CXCursor" "CXCursor") = true ∧
    (∃ T, typeFromClangType (.record "CXCursor" "CXCursor") = .ok T ∧ T.GoName ≠ "") ∧
    typeFromClangType (.unhandled "int (int)" "FunctionNoProto")
      = .error (.unhandledType "int (int)" "FunctionNoProto") := by
  refine ⟨by decide, ⟨_, rfl, ?_⟩, ?_⟩
  · exact (typeFromClangType_fails_closed (.record "CXCursor" "CXCursor")).1 _ rfl (by decide)
  · exact (typeFromClangType_fails_closed (.unhandled "int (int)" "FunctionNoProto")).2.1 _ _ rfl

/-! ## Loop characterizations -/

theorem processParams_results (ps : List FunctionParameter) :
    (processParams ps).results =
      (ps.filter (fun p => p.Typ.IsReturnArgument)).map outParamRetType := by
  induction ps with
  | nil => rfl
  | cons p ps ih =>
    by_cases h : p.Typ.IsReturnArgument = true <;>
      simp [processParams, h, ih, List.filter_cons]

theorem processParams_params (ps : List FunctionParameter) :
    (processParams ps).params =
      (ps.filter (fun p => !p.Typ.IsReturnArgument)).map (fun p => (p.Name, p.Typ.Name)) := by
  induction ps with
  | nil => rfl
  | cons p ps ih =>
    by_cases h : p.Typ.IsReturnArgument = true <;>
      simp [processParams, h, ih, List.filter_cons]

theorem processParams_stmts (ps : List FunctionParameter) :
    (processParams ps).stmts =
      ((ps.filter (fun p => p.Typ.IsReturnArgument)).map outParamDecls).flatten := by
  induction ps with
  | nil => rfl
  | cons p ps ih =>
    by_cases h : p.Typ.IsReturnArgument = true <;>
      simp [processParams, h, ih, List.filter_cons]

theorem processParams_returs (ps : List FunctionParameter) :
    (processParams ps).returs =
      (ps.filter (fun p => p.Typ.IsReturnArgument)).map outParamRetVal := by
  induction ps with
  | nil => rfl
  | cons p ps ih =>
    by_cases h : p.Typ.IsReturnArgument = true <;>
      simp [processParams, h, ih, List.filter_cons]

theorem processParams_hasReturnArguments (ps : List FunctionParameter) :
    (processParams ps).hasReturnArguments = ps.any (fun p => p.Typ.IsReturnArgument) := by
  induction ps with
  | nil => rfl
  | cons p ps ih =>
    by_cases h : p.Typ.IsReturnArgument = true <;> simp [processParams, h, ih]

theorem processArgs_args (ps : List FunctionParameter) :
    (processArgs ps).args = ps.map paramCallArg := by
  induction ps with
  | nil => rfl
  | cons p ps ih => simp [processArgs, ih]

theorem processArgs_stmts (ps : List FunctionParameter) :
    (processArgs ps).stmts = (ps.map paramConvStmts).flatten := by
  induction ps with
  | nil => rfl
  | cons p ps ih => simp [processArgs, ih]

theorem processArgs_goToC (ps : List FunctionParameter) :
    (processArgs ps).goToCTypeConversions = ps.any isCStringParam := by
  induction ps with
  | nil => rfl
  | cons p ps ih => simp [processArgs, ih]

/-- Every branch of the return dispatch appends to `preBody`; and when
return arguments exist, the body ends with a `return` whose leading
results are the first loop's accumulated return expressions. -/
theorem astResultsBody_body_shape (f : Function) :
    ∃ tail, (astResultsBody f).2 = preBody f ++ tail ∧
      ((processParams (loop1Params f)).hasReturnArguments = true →
        ∃ mid tailArgs, (astResultsBody f).2 =
          mid ++ [Stmt.ret ((processParams (loop1Params f)).returs ++ tailArgs)]) := by
  by_cases h0 : f.ReturnType.Name ≠ "void" ∨
      (processParams (loop1Params f)).hasReturnArguments = true
  · simp only [astResultsBody]
    rw [if_pos h0]
    by_cases hb : f.ReturnType.Name = "bool" ∧ f.ReturnType.Primitive ≠ ""
    · rw [if_pos hb]
      exact ⟨_, rfl, fun _ =>
        ⟨preBody f ++ [Stmt.assign "o" (nativeCall f), emptyLineStmt],
         [Expr.neq (.ident "o") (doCCast f.ReturnType.Primitive [.intLit "0"])],
         by simp [List.append_assoc]⟩⟩
    · rw [if_neg hb]
      by_cases hs : f.ReturnType.Name = "string"
      · rw [if_pos hs]
        exact ⟨_, rfl, fun _ =>
          ⟨preBody f, [doCCast "GoString" [nativeCall f]], by simp [List.append_assoc]⟩⟩
      · rw [if_neg hs]
        by_cases hcx : f.ReturnType.Name = "cxstring"
        · rw [if_pos hcx]
          exact ⟨_, rfl, fun _ =>
            ⟨preBody f ++ [Stmt.assign "o" (Expr.compositeLit "cxstring" [nativeCall f]),
               Stmt.deferS (doCall "o" "Dispose" []), emptyLineStmt],
             [doCall "o" "String" []], by simp [List.append_assoc]⟩⟩
        · rw [if_neg hcx]
          by_cases ht : f.ReturnType.Name = "time.Time"
          · rw [if_pos ht]
            exact ⟨_, rfl, fun _ =>
              ⟨preBody f,
               [doCall "time" "Unix" [Expr.call (.ident "int64") [nativeCall f], .intLit "0"]],
               by simp [List.append_assoc]⟩⟩
          · rw [if_neg ht]
            by_cases hv : f.ReturnType.Name = "void"
            · rw [if_pos hv]
              exact ⟨_, rfl, fun _ =>
                ⟨preBody f ++ [Stmt.exprStmt (nativeCall f), emptyLineStmt], [],
                 by simp [List.append_assoc]⟩⟩
            · rw [if_neg hv]
              by_cases hra : (processParams (loop1Params f)).hasReturnArguments = true
              · rw [if_pos hra]
                exact ⟨_, rfl, fun _ =>
                  ⟨preBody f ++
                     [Stmt.assign "o"
                        (if f.ReturnType.Primitive = "" then
                          Expr.compositeLit f.ReturnType.Name [nativeCall f]
                         else Expr.call (.ident f.ReturnType.Name) [nativeCall f]),
                      emptyLineStmt],
                   [Expr.ident "o"], by simp [List.append_assoc]⟩⟩
              · rw [if_neg hra]
                exact ⟨_, rfl, fun h => absurd h hra⟩
  · simp only [astResultsBody]
    rw [if_neg h0]
    exact ⟨_, rfl, fun h => absurd (Or.inr h) h0⟩

/-- C2, counterexample: a synthesized function with a primitive-cast
primary result (rule 8) and one promoted out-parameter declares the
results as `["Result", "Foo"]` — the out-parameter first and the primary
result last — not `["Foo", "Result"]` as the claim's "primary result
first" order requires. -/
theorem generateASTFunction_results_order_counterexample :
    (generateASTFunction
      { Name := "getThing", CName := "clang_getThing",
        Parameters :=
          [{ Name := "x", CName := "x",
             Typ := { Name := "uint16", CName := "unsigned int", Primitive := "uint" } },
           { Name := "out", CName := "out",
             Typ := { Name := "Result", CName := "Result *", IsReturnArgument := true } }],
        ReturnType := { Name := "Foo", CName := "CXFoo", Primitive := "int" } }).results
      = ["Result", "Foo"] ∧
    (["Result", "Foo"] : List String) ≠ ["Foo", "Result"] := by
  exact ⟨rfl, by decide⟩

/-- C2, amended: whenever a synthesized function has both a rules-7/8
primary result and promoted out-parameters, the result list and the
return statement present the out-parameters first, in their native
declaration order, and the primary result last, routed through the named
temporary `o`. -/
theorem generateASTFunction_out_params_first (f : Function)
    (h1 : f.ReturnType.Name ≠ "void") (h2 : f.ReturnType.Name ≠ "string")
    (h3 : f.ReturnType.Name ≠ "cxstring") (h4 : f.ReturnType.Name ≠ "time.Time")
    (h5 : ¬(f.ReturnType.Name = "bool" ∧ f.ReturnType.Primitive ≠ ""))
    (h6 : (loop1Params f).any (fun p => p.Typ.IsReturnArgument) = true) :
    (generateASTFunction f).results =
      ((loop1Params f).filter (fun p => p.Typ.IsReturnArgument)).map outParamRetType
        ++ [f.ReturnType.Name] ∧
    ∃ c, (generateASTFunction f).body =
      preBody f ++ [Stmt.assign "o" c, emptyLineStmt,
        Stmt.ret (((loop1Params f).filter (fun p => p.Typ.IsReturnArgument)).map
          outParamRetVal ++ [Expr.ident "o"])] := by
  have hra : (processParams (loop1Params f)).hasReturnArguments = true := by
    rw [processParams_hasReturnArguments]; exact h6
  simp only [generateASTFunction, astResultsBody]
  rw [if_pos (Or.inr hra), if_neg h5, if_neg h2, if_neg h3, if_neg h4, if_neg h1,
    if_pos hra, if_pos h1]
  constructor
  · rw [processParams_results]
  · exact ⟨_, by rw [processParams_returs]⟩

/-- Witness for C2's amended statement, at a concrete function with one
input parameter, one out-parameter and a primitive primary result. -/
theorem generateASTFunction_out_params_first_witness :
    (generateASTFunction
      { Name := "getThing2", CName := "clang_getThing2",
        Parameters :=
          [{ Name := "x", CName := "x",
             Typ := { Name := "uint16", CName := "unsigned int", Primitive := "uint" } },
           { Name := "out", CName := "out",
             Typ := { Name := "Result", CName := "Result *", IsReturnArgument := true } }],
        ReturnType := { Name := "Foo", CName := "CXFoo", Primitive := "int" } }).results
      = ["Result", "Foo"] ∧
    ∃ c, (generateASTFunction
      { Name := "getThing2", CName := "clang_getThing2",
        Parameters :=
          [{ Name := "x", CName := "x",
             Typ := { Name := "uint16", CName := "unsigned int", Primitive := "uint" } },
           { Name := "out", CName := "out",
             Typ := { Name := "Result", CName := "Result *", IsReturnArgument := true } }],
        ReturnType := { Name := "Foo", CName := "CXFoo", Primitive := "int" } }).body
      = preBody
          { Name := "getThing2", CName := "clang_getThing2",
            Parameters :=
              [{ Name := "x", CName := "x",
                 Typ := { Name := "uint16", CName := "unsigned int", Primitive := "uint" } },
               { Name := "out", CName := "out",
                 Typ := { Name := "Result", CName := "Result *", IsReturnArgument := true } }],
            ReturnType := { Name := "Foo", CName := "CXFoo", Primitive := "int" } }
        ++ [Stmt.assign "o" c, emptyLineStmt,
            Stmt.ret [Expr.ident "out", Expr.ident "o"]] := by
  obtain ⟨hr, c, hb⟩ := generateASTFunction_out_params_first
    { Name := "getThing2", CName := "clang_getThing2",
      Parameters :=
        [{ Name := "x", CName := "x",
           Typ := { Name := "uint16", CName := "unsigned int", Primitive := "uint" } },
         { Name := "out", CName := "out",
           Typ := { Name := "Result", CName := "Result *", IsReturnArgument := true } }],
      ReturnType := { Name := "Foo", CName := "CXFoo", Primitive := "int" } }
    (by decide) (by decide) (by decide) (by decide) (by decide) (by rfl)
  exact ⟨hr, c, hb⟩

/-- C4: out-parameter promotion — (a) out-parameters are removed from the
generated parameter list; (b) the body opens with their `var`
declarations (the C marshal type when one exists), each `cxstring`
declaration immediately followed by its deferred `Dispose`; (c) the call
argument of every out-parameter is an address-of expression; (d) when
out-parameters exist, the body ends with a `return` whose leading values
are the out-parameters' values converted to the target type (the
extracted string content for `cxstring`). -/
theorem generateASTFunction_out_param_promotion (f : Function) :
    (f.Parameters.isEmpty = false →
      (generateASTFunction f).params =
        some (((loop1Params f).filter (fun p => !p.Typ.IsReturnArgument)).map
          (fun p => (p.Name, p.Typ.Name)))) ∧
    (∃ rest, (generateASTFunction f).body =
      (((loop1Params f).filter (fun p => p.Typ.IsReturnArgument)).map outParamDecls).flatten
        ++ rest) ∧
    ((processArgs (renamedParams f)).args = (renamedParams f).map paramCallArg) ∧
    (∀ p : FunctionParameter, p.Typ.IsReturnArgument = true →
      paramCallArg p = .addrOf (paramCallArgBase p) ∧
      outParamDecls p = Stmt.varDecl p.Name (outParamVarType p) ::
        (if p.Typ.Name = "cxstring" then [Stmt.deferS (doCall p.Name "Dispose" [])] else []) ∧
      (p.Typ.Primitive ≠ "" → outParamVarType p = doCType p.Typ.Primitive ∧
        outParamRetVal p = .call (.ident p.Typ.Name) [.ident p.Name]) ∧
      (p.Typ.Name = "cxstring" → p.Typ.Primitive = "" →
        outParamRetVal p = doCall p.Name "String" [])) ∧
    ((loop1Params f).any (fun p => p.Typ.IsReturnArgument) = true →
      ∃ mid tailArgs, (generateASTFunction f).body =
        mid ++ [Stmt.ret (((loop1Params f).filter (fun p => p.Typ.IsReturnArgument)).map
          outParamRetVal ++ tailArgs)]) := by
  obtain ⟨tail, hsh, hret⟩ := astResultsBody_body_shape f
  refine ⟨?_, ?_, processArgs_args _, ?_, ?_⟩
  · intro hni
    simp [generateASTFunction, hni, processParams_params]
  · simp only [generateASTFunction, hsh, preBody, processParams_stmts, List.append_assoc]
    exact ⟨_, rfl⟩
  · intro p hp
    refine ⟨by simp [paramCallArg, hp], rfl, ?_, ?_⟩
    · intro hprim
      exact ⟨by simp [outParamVarType, hprim], by simp [outParamRetVal, hprim]⟩
    · intro hcx hprim
      simp [outParamRetVal, hprim, hcx]
  · intro h6
    have hra : (processParams (loop1Params f)).hasReturnArguments = true := by
      rw [processParams_hasReturnArguments]; exact h6
    obtain ⟨mid, tailArgs, hb⟩ := hret hra
    refine ⟨mid, tailArgs, ?_⟩
    show (astResultsBody f).2 = _
    rw [hb, processParams_returs]

/-- Witness for C4 at a function with one input parameter, one `cxstring`
out-parameter and one marshalled-primitive out-parameter. -/
theorem generateASTFunction_out_param_promotion_witness :
    (generateASTFunction
      { Name := "f", CName := "clang_f",
        Parameters :=
          [{ Name := "x", CName := "x",
             Typ := { Name := "uint16", CName := "unsigned int", Primitive := "uint" } },
           { Name := "sp", CName := "sp",
             Typ := { Name := "cxstring", CName := "CXString *", IsReturnArgument := true } },
           { Name := "n", CName := "n",
             Typ := { Name := "uint16", CName := "unsigned int *", Primitive := "uint",
                      IsReturnArgument := true } }],
        ReturnType := { Name := "void" } }).params = some [("x", "uint16")] ∧
    (∃ rest, (generateASTFunction
      { Name := "f", CName := "clang_f",
        Parameters :=
          [{ Name := "x", CName := "x",
             Typ := { Name := "uint16", CName := "unsigned int", Primitive := "uint" } },
           { Name := "sp", CName := "sp",
             Typ := { Name := "cxstring", CName := "CXString *", IsReturnArgument := true } },
           { Name := "n", CName := "n",
             Typ := { Name := "uint16", CName := "unsigned int *", Primitive := "uint",
                      IsReturnArgument := true } }],
        ReturnType := { Name := "void" } }).body =
      [Stmt.varDecl "sp" (Expr.ident "cxstring"),
       Stmt.deferS (doCall "sp" "Dispose" []),
       Stmt.varDecl "n" (doCType "uint")] ++ rest) ∧
    paramCallArg
      { Name := "n", CName := "n",
        Typ := { Name := "uint16", CName := "unsigned int *", Primitive := "uint",
                 IsReturnArgument := true } } =
      Expr.addrOf (paramCallArgBase
        { Name := "n", CName := "n",
          Typ := { Name := "uint16", CName := "unsigned int *", Primitive := "uint",
                   IsReturnArgument := true } }) ∧
    (∃ mid tailArgs, (generateASTFunction
      { Name := "f", CName := "clang_f",
        Parameters :=
          [{ Name := "x", CName := "x",
             Typ := { Name := "uint16", CName := "unsigned int", Primitive := "uint" } },
           { Name := "sp", CName := "sp",
             Typ := { Name := "cxstring", CName := "CXString *", IsReturnArgument := true } },
           { Name := "n", CName := "n",
             Typ := { Name := "uint16", CName := "unsigned int *", Primitive := "uint",
                      IsReturnArgument := true } }],
        ReturnType := { Name := "void" } }).body =
      mid ++ [Stmt.ret ([doCall "sp" "String" [],
        Expr.call (Expr.ident "uint16") [Expr.ident "n"]] ++ tailArgs)]) := by
  obtain ⟨ha, hb, -, hd, he⟩ := generateASTFunction_out_param_promotion
    { Name := "f", CName := "clang_f",
      Parameters :=
        [{ Name := "x", CName := "x",
           Typ := { Name := "uint16", CName := "unsigned int", Primitive := "uint" } },
         { Name := "sp", CName := "sp",
           Typ := { Name := "cxstring", CName := "CXString *", IsReturnArgument := true } },
         { Name := "n", CName := "n",
           Typ := { Name := "uint16", CName := "unsigned int *", Primitive := "uint",
                    IsReturnArgument := true } }],
      ReturnType := { Name := "void" } }
  refine ⟨(ha rfl).trans rfl, ?_, ?_, ?_⟩
  · obtain ⟨rest, h⟩ := hb
    exact ⟨rest, h⟩
  · exact (hd { Name := "n", CName := "n",
                Typ := { Name := "uint16", CName := "unsigned int *", Primitive := "uint",
                         IsReturnArgument := true } } rfl).1
  · obtain ⟨mid, t, h⟩ := he rfl
    exact ⟨mid, t, h⟩

/-- C5: `const char *` marshalling — the body contains, in parameter
order and before the call, each primitive `const char *` parameter's
transient `C.CString` allocation immediately followed by the deferred
`C.free` of it, and the call argument for such a parameter is the
transient copy `c_<name>`, never the raw parameter. -/
theorem generateASTFunction_cstring_param_marshalling (f : Function) :
    (∃ pre rest, (generateASTFunction f).body =
      pre ++ ((renamedParams f).map paramConvStmts).flatten ++ rest) ∧
    ((processArgs (renamedParams f)).args = (renamedParams f).map paramCallArg) ∧
    (∀ p : FunctionParameter, p.Typ.IsReturnArgument = false → p.Typ.Primitive ≠ "" →
      p.Typ.CName = "const char *" →
      paramConvStmts p =
        [Stmt.assign ("c_" ++ p.Name) (doCCast "CString" [.ident p.Name]),
         Stmt.deferS (doCCast "free" [doCall "unsafe" "Pointer" [.ident ("c_" ++ p.Name)]])] ∧
      paramCallArg p = .ident ("c_" ++ p.Name)) := by
  obtain ⟨tail, hsh, -⟩ := astResultsBody_body_shape f
  refine ⟨?_, processArgs_args _, ?_⟩
  · simp only [generateASTFunction, hsh, preBody, processArgs_stmts, List.append_assoc]
    refine ⟨(processParams (loop1Params f)).stmts ++
        (if (processParams (loop1Params f)).hasReturnArguments = true then [emptyLineStmt]
         else []),
      (if (processArgs (renamedParams f)).goToCTypeConversions = true then [emptyLineStmt]
       else []) ++ tail, ?_⟩
    simp [List.append_assoc]
  · intro p hout hprim hcname
    refine ⟨by simp [paramConvStmts, hprim, hcname], ?_⟩
    simp [paramCallArg, hout, paramCallArgBase, hprim, hcname]

/-- Witness for C5 at the `clang_getFile` shape: one idiomatic-string
parameter marshalled through a transient C string. -/
theorem generateASTFunction_cstring_param_marshalling_witness :
    (∃ pre rest, (generateASTFunction
      { Name := "File", CName := "clang_getFile",
        Parameters :=
          [{ Name := "file_name", CName := "file_name",
             Typ := { Name := "string", CName := "const char *", Primitive := "char" } }],
        ReturnType := { Name := "File" } }).body =
      pre ++ [Stmt.assign "c_file_name" (doCCast "CString" [Expr.ident "file_name"]),
        Stmt.deferS (doCCast "free"
          [doCall "unsafe" "Pointer" [Expr.ident "c_file_name"]])] ++ rest) ∧
    (processArgs (renamedParams
      { Name := "File", CName := "clang_getFile",
        Parameters :=
          [{ Name := "file_name", CName := "file_name",
             Typ := { Name := "string", CName := "const char *", Primitive := "char" } }],
        ReturnType := { Name := "File" } })).args = [Expr.ident "c_file_name"] ∧
    paramCallArg
      { Name := "file_name", CName := "file_name",
        Typ := { Name := "string", CName := "const char *", Primitive := "char" } } =
      Expr.ident "c_file_name" := by
  obtain ⟨⟨pre, rest, h⟩, hargs, hp⟩ := generateASTFunction_cstring_param_marshalling
    { Name := "File", CName := "clang_getFile",
      Parameters :=
        [{ Name := "file_name", CName := "file_name",
           Typ := { Name := "string", CName := "const char *", Primitive := "char" } }],
      ReturnType := { Name := "File" } }
  refine ⟨⟨pre, rest, h⟩, hargs.trans rfl, ?_⟩
  exact (hp { Name := "file_name", CName := "file_name",
              Typ := { Name := "string", CName := "const char *",
                       Primitive := "char" } } rfl (by decide) rfl).2
